import Mathlib

/-!
Verification of the sim800l driver core (Go) against its natural-language
specification.  The Go functions are shallowly embedded as pure Lean
functions: the UART byte stream becomes an explicit list of bytes, the
device's mutable fields become an explicit state record, and each
command/response exchange is driven by an explicit environment value
describing what the device answered.  Bytes are modelled as `Nat` values
(the Go code only ever compares them against ASCII constants and the
buffer bounds, so no modular arithmetic is needed).
-/

namespace Sim800l

/-- The `MaxBufferSize` from sim800l.go: size of the fixed UART scratch buffer. -/
def MaxBufferSize : Nat := 256

/-- The `MaxCommandSize = MaxBufferSize - 2 - 2` from sim800l.go. -/
def MaxCommandSize : Nat := MaxBufferSize - 2 - 2

/-- The `MaxConnections` from sim800l.go. -/
def MaxConnections : Nat := 5

/-- The `RecvBufSize` from sim800l.go: per-connection receive-buffer capacity. -/
def RecvBufSize : Nat := 1024

/-- Byte list of a Lean string (ASCII): used to transcribe the Go byte-slice
literals such as `[]byte("+CIPSTART")`. -/
def strB (s : String) : List Nat := s.toList.map Char.toNat

/-- The `bytes.HasPrefix(s, pre)` from the Go standard library. -/
def hasPrefB : List Nat → List Nat → Bool
  | [], _ => true
  | _ :: _, [] => false
  | p :: ps, b :: bs => p == b && hasPrefB ps bs

/-- The `bytes.Contains(s, sub)` from the Go standard library. -/
def containsB (s sub : List Nat) : Bool :=
  match s with
  | [] => hasPrefB sub []
  | _ :: rest => hasPrefB sub s || containsB rest sub

/-- Go `unicode.IsSpace` restricted to the ASCII range, as used by
`bytes.TrimSpace` on the driver's ASCII responses. -/
def isSpaceByte (b : Nat) : Bool :=
  b == 32 || b == 9 || b == 10 || b == 11 || b == 12 || b == 13

/-- The `bytes.TrimSpace` (ASCII): drop whitespace bytes from both ends. -/
def trimSpaceB (s : List Nat) : List Nat :=
  ((s.dropWhile isSpaceByte).reverse.dropWhile isSpaceByte).reverse

/-- Helper for `bytes.Split`: accumulate the current field (reversed). -/
def splitBAux (sep : Nat) : List Nat → List Nat → List (List Nat)
  | [], acc => [acc.reverse]
  | b :: bs, acc =>
    if b == sep then acc.reverse :: splitBAux sep bs []
    else splitBAux sep bs (b :: acc)

/-- The `bytes.Split(s, [sep])` from the Go standard library. -/
def splitB (sep : Nat) (s : List Nat) : List (List Nat) := splitBAux sep s []

/-- The `bytes.Index(s, [b])` for a single byte, as used on the `+RECEIVE` line. -/
def indexOfB (b : Nat) : List Nat → Option Nat
  | [] => none
  | x :: xs => if x == b then some 0 else (indexOfB b xs).map (· + 1)

/-- Digit-string value: the core of `strconv.Atoi` — `none` unless the
list is a non-empty run of ASCII digits. -/
def digitsValB : List Nat → Option Nat
  | [] => none
  | [d] => if 48 ≤ d ∧ d ≤ 57 then some (d - 48) else none
  | d :: rest =>
    if 48 ≤ d ∧ d ≤ 57 then
      (digitsValB rest).map (fun v => (d - 48) * 10 ^ rest.length + v)
    else none

/-- The `strconv.Atoi` from the Go standard library: optional sign followed by
digits (the driver's inputs are far below the int64 overflow bound, which
is therefore not modelled). -/
def atoiB (s : List Nat) : Option Int :=
  match s with
  | [] => none
  | b :: rest =>
    if b = 43 then (digitsValB rest).map (fun v => (v : Int))
    else if b = 45 then (digitsValB rest).map (fun v => -(v : Int))
    else (digitsValB s).map (fun v => (v : Int))

/-- Structural worker for `natDigits`; `fuel ≥ n` always suffices, and the
`fuel = 0` branch is unreachable for the arguments `natDigits` passes. -/
def natDigitsAux : Nat → Nat → List Nat
  | 0, n => [48 + n % 10]
  | fuel + 1, n =>
    if n < 10 then [48 + n] else natDigitsAux fuel (n / 10) ++ [48 + n % 10]

/-- Decimal ASCII rendering of a natural number, as produced by
`strconv.AppendInt` / `fmt`'s `%d` verb. -/
def natDigits (n : Nat) : List Nat := natDigitsAux n n

/-- The error values produced by the driver (sim800l.go / gprs.go); each
constructor corresponds to one `errors.New`, `&ATError{...}` or
`fmt.Errorf` site. `wrap msg e` models `fmt.Errorf("msg: %w", e)`. -/
inductive GoError where
  | timeout
  | bufferOverflow
  | noIP
  | maxConn
  | unexpectedResponse
  | cannotConnect
  | cannotSend
  | atError (command : List Nat)
  | unexpectedMsg (buffer : List Nat)
  | tooLong (n : Nat)
  | unsupportedNetwork (s : String)
  | invalidConnID (cid : Nat)
  | unexpectedTokenType
  | receiveFormat (line : List Nat)
  | receiveBadID (part : List Nat)
  | receiveMissingLen (part : List Nat)
  | receiveBadLen (part : List Nat)
  | receiveTooLong (n : Nat)
  | wrap (msg : String) (e : GoError)
  deriving DecidableEq, Repr

/-! ## The byte framer: `Device.readLine` (sim800l.go lines 315-379)

The Go loop polls the UART one byte at a time until the deadline passes.
The embedding replaces the timed byte source by the list of bytes the
device will deliver before the deadline: exhausting the list is exactly
the deadline expiring with no complete unit, i.e. `ErrTimeout`. -/

/-- Result of one `readLine` call: a complete line (with the unconsumed
input), the bare `>` prompt, a scratch-buffer overflow, or a timeout. -/
inductive ReadLineResult where
  | line (content : List Nat) (rest : List Nat)
  | prompt (rest : List Nat)
  | overflow
  | timeout
  deriving DecidableEq, Repr

/-- The two framer states `stateStart` / `stateEndLine` of `readLine`. -/
inductive FramerState where
  | scanningStart
  | sawCR
  deriving DecidableEq, Repr

/-- The byte loop of `readLine`: `acc` is `d.buffer[:d.end]`.  Mirrors the
source byte for byte, including the `d.end <= 2` empty-line skip (which
does not reset `d.end`) and the buffer reset after a stray `\r`. -/
def readLineAux : List Nat → FramerState → List Nat → ReadLineResult
  | [], _, _ => .timeout
  | b :: bs, .scanningStart, acc =>
    if b == 13 then readLineAux bs .sawCR acc
    else if b == 62 then .prompt bs
    else if acc.length ≥ MaxBufferSize then .overflow
    else readLineAux bs .scanningStart (acc ++ [b])
  | b :: bs, .sawCR, acc =>
    if b == 10 then
      -- "Escape empty lines": d.end <= 2 resumes scanning without returning
      if acc.length ≤ 2 then readLineAux bs .scanningStart acc
      else .line acc bs
    else
      -- d.end = 0, then append b and resume scanning
      readLineAux bs .scanningStart [b]

/-- The `Device.readLine`: frame the next response unit out of `input`. -/
def readLineB (input : List Nat) : ReadLineResult :=
  readLineAux input .scanningStart []

/-! ## Data model: connections and device state (sim800l.go / gprs.go) -/

/-- The `ConnectionType` (TCP / UDP). -/
inductive ConnectionType where
  | tcp
  | udp
  deriving DecidableEq, Repr

/-- The `ConnectionState` from sim800l.go. -/
inductive ConnectionState where
  | initial
  | connecting
  | connected
  | closing
  | closed
  | error
  deriving DecidableEq, Repr

/-- A `Connection` record (the `Device` back-pointer is left implicit:
records live only inside one device's table). -/
structure Connection where
  id : Nat
  ctype : ConnectionType
  cstate : ConnectionState
  remoteIP : String
  remotePort : String
  deriving DecidableEq, Repr

/-- The `Device` fields the verified operations touch: the cached IP, the
fixed 5-slot connection table (`connections`), and the per-connection
receive buffers (`recvBuffers` contents up to `recvBufLengths`, modelled
as one list per slot). -/
structure DeviceState where
  ip : String
  conns : List (Option Connection)
  recvBufs : List (List Nat)
  deriving DecidableEq, Repr

/-! ## Command/response exchanges

`readLine` sits behind every exchange.  A `LineEvent` is the abstract
outcome of one `readLine` call made while a command response was awaited:
the device timed out, overflowed the scratch buffer, delivered a stray
read error (Go: `readLine` returns `TokenInvalid` with a nil error), the
`>` prompt, or one complete line with the given content. -/

inductive LineEvent where
  | timeout
  | overflow
  | readErr
  | prompt
  | line (content : List Nat)
  deriving DecidableEq, Repr

/-- The `okToken` / `errorToken` from sim800l.go. -/
def okToken : List Nat := strB "OK"

/-- The `errorToken` from sim800l.go. -/
def errorToken : List Nat := strB "ERROR"

/-- The `defaultResponseCheck` (sim800l core): `OK` wins, then `ERROR`
(as an `ATError` carrying the buffer), else an unexpected-response error. -/
def defaultResponseCheck (buffer : List Nat) : Option GoError :=
  if containsB buffer okToken then none
  else if containsB buffer errorToken then some (.atError buffer)
  else some (.unexpectedMsg buffer)

/-- The `Device.readResponse(cmd, checkFunc, timeout)`: one `readLine`, then
`TokenLine` required, then the acceptance rule on the buffer contents.
`check = none` is Go's `checkFunc == nil` (accept any line). -/
def readResponseM (cmd : List Nat) (check : Option (List Nat → Option GoError))
    (ev : LineEvent) : Option GoError :=
  match ev with
  | .timeout => some .timeout
  | .overflow => some .bufferOverflow
  | .readErr => some (.atError cmd)
  | .prompt => some (.atError cmd)
  | .line content =>
    match check with
    | some f => f content
    | none => none

/-- The `Device.send(cmd)` = `sendRaw` (whose only local failure is the
length bound; a UART write error surfaces like `readErr`) followed by
`readResponse` with the default acceptance rule.  `sendRaw` uppercases
the caller's slice in place, so the command the response path sees is the
uppercased one. -/
def sendM (cmd : List Nat) (ev : LineEvent) : Option GoError :=
  if cmd.length > MaxCommandSize then some (.tooLong cmd.length)
  else readResponseM cmd (some defaultResponseCheck) ev

/-! ## Receive demultiplexer: `checkForReceivedData` (gprs.go lines 386-460) -/

/-- The `[]byte("+RECEIVE")` prefix expected on the notification line. -/
def receiveToken : List Nat := strB "+RECEIVE"

/-- The `stateStart` validation of one framed line in
`checkForReceivedData`: split on commas, require at least three parts and
the `+RECEIVE` prefix, parse the connection id (range-checked against
`MaxConnections`), locate the `:` in the third part, parse the length,
and reject non-positive lengths and lengths above `MaxBufferSize`. -/
def parseReceive (line : List Nat) : Except GoError (Nat × Nat) :=
  let parts := splitB 44 line
  if parts.length < 3 ∨ ¬ hasPrefB receiveToken (parts.getD 0 []) then
    .error (.receiveFormat line)
  else
    match atoiB (trimSpaceB (parts.getD 1 [])) with
    | none => .error (.receiveBadID (parts.getD 1 []))
    | some cid =>
      if cid < 0 ∨ (MaxConnections : Int) ≤ cid then
        .error (.receiveBadID (parts.getD 1 []))
      else
        match indexOfB 58 (parts.getD 2 []) with
        | none => .error (.receiveMissingLen (parts.getD 2 []))
        | some colonIdx =>
          match atoiB ((parts.getD 2 []).take colonIdx) with
          | none => .error (.receiveBadLen (parts.getD 2 []))
          | some n =>
            if n ≤ 0 then .error (.receiveBadLen (parts.getD 2 []))
            else if (MaxBufferSize : Int) < n then
              .error (.receiveTooLong n.toNat)
            else .ok (cid.toNat, n.toNat)

/-- A well-formed `+RECEIVE,0,<digits>:` notification line for
connection 0 with the announced length given by the digit string `ds`. -/
def mkReceiveLine (ds : List Nat) : List Nat :=
  receiveToken ++ 44 :: 48 :: 44 :: (ds ++ [58])

/-- The `stateFound` loop of `checkForReceivedData`: read up to
`MaxBufferSize` bytes at a time from the UART into the scratch buffer,
keep at most `remaining` of them, and copy into the target connection's
fixed `RecvBufSize` buffer (the copy truncates at capacity).  Running out
of input is the deadline expiring (`ErrTimeout`). -/
def drainLoopAux (cid : Nat) : Nat → Nat → List (List Nat) → List Nat →
    Except GoError Unit × List (List Nat)
  | _, _, bufs, [] => (.error .timeout, bufs)
  | 0, _, bufs, _ :: _ => (.error .timeout, bufs)
  | fuel + 1, remaining, bufs, b :: bs =>
    let k := min MaxBufferSize (b :: bs).length
    let chunk := (b :: bs).take k
    let rest := (b :: bs).drop k
    let n := min k remaining
    let cur := bufs.getD cid []
    let copied := min n (RecvBufSize - cur.length)
    let bufs' := bufs.set cid (cur ++ chunk.take copied)
    let remaining' := remaining - copied
    if remaining' = 0 then (.ok (), bufs')
    else drainLoopAux cid fuel remaining' bufs' rest

/-- Entry point of the drain loop; the fuel `input.length` dominates the
number of iterations because each one consumes at least one input byte,
so the fuel-exhausted branch of the worker is unreachable. -/
def drainLoop (cid : Nat) (remaining : Nat) (bufs : List (List Nat))
    (input : List Nat) : Except GoError Unit × List (List Nat) :=
  drainLoopAux cid input.length remaining bufs input

/-- Handling of one complete framed line by `checkForReceivedData`:
validate the preamble, reset the target connection's buffered length to
zero, and drain the announced payload. -/
def handleReceiveLine (st : DeviceState) (content rest : List Nat) :
    Except GoError Unit × DeviceState :=
  match parseReceive content with
  | .error e => (.error e, st)
  | .ok (cid, n) =>
    let bufs0 := st.recvBufs.set cid []
    let dr := drainLoop cid n bufs0 rest
    (dr.1, { st with recvBufs := dr.2 })

/-- The `Device.checkForReceivedData(timeout)` driven by the byte stream
`input`: frame one unit (anything but a complete line is an error —
`readLine`'s own error for timeout/overflow, otherwise the
"unexpected token type" error), then validate and drain. -/
def checkForReceivedData (st : DeviceState) (input : List Nat) :
    Except GoError Unit × DeviceState :=
  match readLineB input with
  | .timeout => (.error .timeout, st)
  | .overflow => (.error .bufferOverflow, st)
  | .prompt _ => (.error .unexpectedTokenType, st)
  | .line content rest => handleReceiveLine st content rest

/-! ## `sendRaw` and `toUpperNoCopy` (gprs.go core, lines 681-716) -/

/-- The `[]byte("AT")` command prefix and CR+LF terminator. -/
def atToken : List Nat := strB "AT"

/-- The `crlf` terminator bytes. -/
def crlfB : List Nat := [13, 10]

/-- The `toUpperNoCopy`: each byte in `'a'..'z'` is replaced by its uppercase
counterpart.  Go performs this on the caller's backing array; the
embedding returns the resulting contents of that array. -/
def toUpperNoCopy (b : List Nat) : List Nat :=
  b.map (fun x => if 97 ≤ x && x ≤ 122 then x - 32 else x)

/-- Everything observable about one `sendRaw` call: its return value, the
bytes handed to `uart.Write`, and the contents of the caller's `cmd`
slice after the call (Go mutates it in place). -/
structure SendRawOut where
  res : Option GoError
  written : List Nat
  cmdAfter : List Nat
  deriving DecidableEq, Repr

/-- The `Device.sendRaw(cmd)`: reject over-long commands before touching the
UART; otherwise drain stale input, uppercase `cmd` in place, assemble
optional `AT` prefix + command + CRLF in the fixed scratch buffer (the
`copy` calls truncate at its `MaxBufferSize` capacity) and write it.
`writeFails` is the environment's verdict on the `uart.Write` call. -/
def sendRawB (cmd : List Nat) (writeFails : Bool) : SendRawOut :=
  if cmd.length > MaxCommandSize then
    { res := some (.tooLong cmd.length), written := [], cmdAfter := cmd }
  else
    let up := toUpperNoCopy cmd
    let assembled := (if hasPrefB atToken up then [] else atToken) ++ up ++ crlfB
    let buf := assembled.take MaxBufferSize
    { res := if writeFails then some (.atError up) else none,
      written := buf, cmdAfter := up }

/-! ## `Dial` (gprs.go lines 143-225) -/

/-- The first-free-slot scan in `Dial`
(`for i := 0; i < MaxConnections; i++ { if connections[i] == nil ... }`). -/
def findFreeAux (conns : List (Option Connection)) : Nat → Nat → Option Nat
  | 0, _ => none
  | fuel + 1, i =>
    if i < MaxConnections then
      if conns.getD i none = none then some i else findFreeAux conns fuel (i + 1)
    else none

/-- Lowest free connection-table slot, `none` when all are occupied: the
loop visits `i = 0, …, MaxConnections - 1`, so `MaxConnections` units of
fuel cover every iteration that can pass the `i < MaxConnections` test. -/
def findFreeSlot (conns : List (Option Connection)) : Option Nat :=
  findFreeAux conns MaxConnections 0

/-- ASCII `strings.ToLower`. -/
def toLowerStr (s : String) : String :=
  String.mk (s.toList.map fun c =>
    if 65 ≤ c.toNat ∧ c.toNat ≤ 90 then Char.ofNat (c.toNat + 32) else c)

/-- The `switch strings.ToLower(network)` in `Dial`. -/
def parseConnType (network : String) : Option ConnectionType :=
  if toLowerStr network = "tcp" then some .tcp
  else if toLowerStr network = "udp" then some .udp
  else none

/-- The `+CIPSTART=<id>,"<TCP|UDP>","<host>","<port>"` command bytes. -/
def dialCmd (cid : Nat) (networkType host port : String) : List Nat :=
  strB "+CIPSTART=" ++ natDigits cid ++ strB (",\"" ++ networkType ++
    "\",\"" ++ host ++ "\",\"" ++ port ++ "\"")

/-- The `[]byte("+CIPSTART")`, used as the command tag of the second read. -/
def cmdClipStart : List Nat := strB "+CIPSTART"

/-- The connect acceptance rule in `Dial`: `CONNECT OK` and
`ALREADY CONNECT` succeed, `CONNECT FAIL` is `ErrCannotConnect`, anything
else `ErrUnexpectedResponse`. -/
def dialCheck (buffer : List Nat) : Option GoError :=
  if containsB buffer (strB "CONNECT OK") then none
  else if containsB buffer (strB "CONNECT FAIL") then some .cannotConnect
  else if containsB buffer (strB "ALREADY CONNECT") then none
  else some .unexpectedResponse

/-- The `Device.Dial(network, address)`.  `splitHostPort` abstracts the Go
standard-library `net.SplitHostPort`; `ev1` is the device's answer to the
`+CIPSTART` send (read with the default rule), `ev2` the subsequent
connect-status line.  Returns the Go result and the post-call state:
the connection table is written only on the all-success path. -/
def Dial (st : DeviceState) (network address : String)
    (splitHostPort : String → Except GoError (String × String))
    (ev1 ev2 : LineEvent) : Except GoError Connection × DeviceState :=
  if st.ip = "" then (.error .noIP, st)
  else
    match findFreeSlot st.conns with
    | none => (.error .maxConn, st)
    | some cid =>
      match parseConnType network with
      | none => (.error (.unsupportedNetwork network), st)
      | some ct =>
        match splitHostPort address with
        | .error e => (.error (.wrap "invalid address format" e), st)
        | .ok (host, port) =>
          let conn : Connection :=
            { id := cid, ctype := ct, cstate := .connecting,
              remoteIP := host, remotePort := port }
          let networkType := if ct = .udp then "UDP" else "TCP"
          let cmd := dialCmd cid networkType host port
          match sendM cmd ev1 with
          | some e => (.error (.wrap "failed to start connection" e), st)
          | none =>
            match readResponseM cmdClipStart (some dialCheck) ev2 with
            | some e => (.error (.wrap "connection failed" e), st)
            | none =>
              let conn' := { conn with cstate := .connected }
              (.ok conn', { st with conns := st.conns.set cid (some conn') })

/-! ## `CloseConnection` (gprs.go lines 228-249) -/

/-- The `[]byte("+CIPCLOSE")`. -/
def cmdClipClose : List Nat := strB "+CIPCLOSE"

/-- The `Device.CloseConnection(cid)`: validate id and occupancy, mark the
record Closing, send `+CIPCLOSE<cid>`, clear the slot unconditionally,
and report the send error (wrapped) if there was one. -/
def CloseConnection (st : DeviceState) (cid : Nat) (ev : LineEvent) :
    Except GoError Unit × DeviceState :=
  if cid ≥ MaxConnections ∨ st.conns.getD cid none = none then
    (.error (.invalidConnID cid), st)
  else
    -- conn.state = StateClosing mutates the record that the next line
    -- unconditionally drops from the table
    let cmd := cmdClipClose ++ natDigits cid
    let res := sendM cmd ev
    let st' := { st with conns := st.conns.set cid none }
    match res with
    | some e => (.error (.wrap "failed to close connection" e), st')
    | none => (.ok (), st')

/-! ## `Disconnect` (gprs.go lines 115-139) -/

/-- The `[]byte("+CIPSHUT")` and `[]byte("+CGATT=0")`. -/
def cmdShutPdp : List Nat := strB "+CIPSHUT"

/-- The `[]byte("+CGATT=0")`. -/
def cmdGprsDetach : List Nat := strB "+CGATT=0"

/-- One iteration of the close-all loop of `Disconnect`: if slot `i` is
occupied, call `CloseConnection` and discard its error. -/
def closeStep (evClose : Nat → LineEvent) (s : DeviceState) (i : Nat) :
    DeviceState :=
  if (s.conns.getD i none).isSome then (CloseConnection s i (evClose i)).2
  else s

/-- The close-all loop of `Disconnect` over slots `0..4`. -/
def closeAll (st : DeviceState) (evClose : Nat → LineEvent) : DeviceState :=
  (List.range MaxConnections).foldl (closeStep evClose) st

/-- The `Device.Disconnect()`: close every occupied slot (errors ignored),
shut the PDP context, detach, and clear the cached IP — returning early
with the wrapped error if the shut or detach command fails. -/
def Disconnect (st : DeviceState) (evClose : Nat → LineEvent)
    (evShut evDetach : LineEvent) : Except GoError Unit × DeviceState :=
  let st1 := closeAll st evClose
  match sendM cmdShutPdp evShut with
  | some e => (.error (.wrap "failed to shut down PDP context" e), st1)
  | none =>
    match sendM cmdGprsDetach evDetach with
    | some e => (.error (.wrap "failed to detach from GPRS" e), st1)
    | none => (.ok (), { st1 with ip := "" })

/-! ## Chunked send: `connectionSend` (gprs.go lines 289-351) -/

/-- The `maxChunk`: the per-transfer limit of a single `+CIPSEND`. -/
def maxChunk : Nat := 1024

/-- The `[]byte("+CIPSEND")`. -/
def cmdClipSend : List Nat := strB "+CIPSEND"

/-- The `+CIPSEND<id>,<size>` command bytes (built by `strconv.AppendInt`). -/
def prepCmd (id size : Nat) : List Nat :=
  cmdClipSend ++ natDigits id ++ [44] ++ natDigits size

/-- The completion acceptance rule: `SEND OK` succeeds, `SEND FAIL` is
`ErrCannotSend`, anything else `ErrUnexpectedResponse`. -/
def sendCompletionCheck (buffer : List Nat) : Option GoError :=
  if containsB buffer (strB "SEND OK") then none
  else if containsB buffer (strB "SEND FAIL") then some .cannotSend
  else some .unexpectedResponse

/-- The device's behaviour for one chunk of `connectionSend`: the raw
send outcome (UART write failure), the unit framed while awaiting the
`>` prompt, the outcome of writing the chunk payload, and the unit framed
while awaiting the completion line. -/
structure ChunkEnv where
  sendRawErr : Option GoError
  promptEv : LineEvent
  writeErr : Option GoError
  completionEv : LineEvent
  deriving DecidableEq, Repr

/-- Whether a framed completion unit is a line carrying the
`SEND OK` success marker. -/
def completionOkB : LineEvent → Bool
  | .line c => containsB c (strB "SEND OK")
  | _ => false

/-- A chunk environment under which one chunk goes through completely:
raw send and payload write succeed, the prompt arrives, and the
completion line carries the success marker. -/
def chunkOkB (e : ChunkEnv) : Bool :=
  e.sendRawErr == none && (e.promptEv == .prompt) &&
    (e.writeErr == none) && completionOkB e.completionEv

/-- The chunk loop of `connectionSend`: `total` is `totalSent`, `k` the
chunk index selecting the environment entry.  On each chunk: raw-send the
`+CIPSEND` command, require a `TokenPrompt` (wrapping framer errors,
rejecting any other unit), write the chunk, and require a completion line
accepted by `sendCompletionCheck` — aborting with `totalSent` unchanged
on any failure, advancing it by the chunk size otherwise. -/
def sendChunksAux (id : Nat) (env : Nat → ChunkEnv) :
    Nat → List Nat → Nat → Nat → Nat × Option GoError
  | _, [], _, total => (total, none)
  | 0, _ :: _, _, total => (total, none)
  | fuel + 1, b :: bs, k, total =>
    let size := min maxChunk (b :: bs).length
    let e := env k
    let cmd := prepCmd id size
    if cmd.length > MaxCommandSize then (total, some (.tooLong cmd.length))
    else
      match e.sendRawErr with
      | some err => (total, some err)
      | none =>
        match e.promptEv with
        | .timeout => (total, some (.wrap "failed to read prompt" .timeout))
        | .overflow =>
            (total, some (.wrap "failed to read prompt" .bufferOverflow))
        | .readErr => (total, some .unexpectedResponse)
        | .line _ => (total, some .unexpectedResponse)
        | .prompt =>
          match e.writeErr with
          | some err => (total, some (.wrap "failed to send data" err))
          | none =>
            match readResponseM [] (some sendCompletionCheck) e.completionEv with
            | some err => (total, some err)
            | none =>
              sendChunksAux id env fuel ((b :: bs).drop size) (k + 1)
                (total + size)

/-- Entry point of the chunk loop; each iteration consumes at least one
payload byte, so fuel `data.length` makes the fuel-exhausted branch of
the worker unreachable. -/
def sendChunks (id : Nat) (env : Nat → ChunkEnv) (data : List Nat)
    (k total : Nat) : Nat × Option GoError :=
  sendChunksAux id env data.length data k total

/-- The `Device.connectionSend(id, data)`: validate the id and occupancy,
short-circuit the empty payload, then run the chunk loop. -/
def connectionSend (st : DeviceState) (id : Nat) (data : List Nat)
    (env : Nat → ChunkEnv) : Nat × Option GoError :=
  if id ≥ MaxConnections ∨ st.conns.getD id none = none then
    (0, some (.invalidConnID id))
  else if data.length = 0 then (0, none)
  else sendChunks id env data 0 0

end Sim800l

namespace Lexer

/-! ## The response lexer (lexer.go) — string-based, hence `List Char`. -/

/-- The `MaxValues` from lexer.go: cap on comma-split sub-values. -/
def MaxValues : Nat := 8

/-- Character list of a string literal. -/
def strC (s : String) : List Char := s.toList

/-- The `strings.HasPrefix`. -/
def hasPrefC : List Char → List Char → Bool
  | [], _ => true
  | _ :: _, [] => false
  | p :: ps, c :: cs => p == c && hasPrefC ps cs

/-- Go `unicode.IsSpace` over the ASCII range, for `strings.TrimSpace`. -/
def isSpaceC (c : Char) : Bool :=
  c == ' ' || c == '\t' || c == '\n' || c == '\x0b' || c == '\x0c' || c == '\r'

/-- The `strings.TrimSpace` (ASCII). -/
def trimSpaceC (s : List Char) : List Char :=
  ((s.dropWhile isSpaceC).reverse.dropWhile isSpaceC).reverse

/-- Position of the first occurrence of `c`, for `strings.SplitN _ ":" 2`. -/
def indexOfC (c : Char) : List Char → Option Nat
  | [] => none
  | x :: xs => if x == c then some 0 else (indexOfC c xs).map (· + 1)

/-- The `parseValues` (lexer.go lines 326-352): split on commas outside
double quotes; each comma flushes the builder, appending it only while
fewer than `MaxValues` values were collected; a trailing non-empty
builder is appended under the same cap. -/
def parseValuesAux : List Char → Bool → List Char → List (List Char) →
    List (List Char)
  | [], _, builder, acc =>
    if 0 < builder.length ∧ acc.length < MaxValues then acc ++ [builder] else acc
  | c :: cs, inQuote, builder, acc =>
    if c == '"' then parseValuesAux cs (!inQuote) (builder ++ [c]) acc
    else if c == ',' && !inQuote then
      parseValuesAux cs inQuote []
        (if acc.length < MaxValues then acc ++ [builder] else acc)
    else parseValuesAux cs inQuote (builder ++ [c]) acc

/-- The `parseValues(s)`. -/
def parseValues (s : List Char) : List (List Char) :=
  parseValuesAux s false [] []

/-- The token kinds of lexer.go. -/
inductive LTokenType where
  | invalid
  | ok
  | err
  | cme
  | cms
  | command
  | response
  | urc
  | data
  | prompt
  | empty
  deriving DecidableEq, Repr

/-- A lexer `Token`; `values` is the occupied prefix
`Values[:ValuesLen]` of the fixed array. -/
structure LToken where
  ttype : LTokenType
  command : List Char := []
  value : List Char := []
  values : List (List Char) := []
  raw : List Char := []
  deriving DecidableEq, Repr

/-- The `urcs` roster from lexer.go. -/
def urcs : List (List Char) :=
  [strC "+CREG", strC "+CGREG", strC "+CEREG", strC "+CMTI", strC "+CMT",
   strC "+CUSD", strC "+CLIP", strC "+CIEV", strC "RING", strC "+DTMF",
   strC "BUSY", strC "NO ANSWER", strC "NO CARRIER", strC "+CPAS",
   strC "+IPD"]

/-- The `isURC(cmd)`. -/
def isURC (cmd : List Char) : Bool :=
  urcs.any (fun u => u == cmd)

/-- The `Lexer.parseLine` (lexer.go lines 199-296) as a function from the
line to the token it appends: exact `OK` / `ERROR` / `>` matches and the
CME/CMS prefixes first, then the colon-keyed form (key before the first
colon, value after, trimmed; comma-split values copied under the
`MaxValues` cap; URC roster decides response vs. notification), then the
`AT` echo, else free-form data. -/
def parseLineL (line : List Char) : LToken :=
  if line = strC "OK" then { ttype := .ok, raw := line }
  else if line = strC "ERROR" then { ttype := .err, raw := line }
  else if hasPrefC (strC "+CME ERROR:") line then
    { ttype := .cme, value := trimSpaceC (line.drop 11), raw := line }
  else if hasPrefC (strC "+CMS ERROR:") line then
    { ttype := .cms, value := trimSpaceC (line.drop 11), raw := line }
  else if line = strC ">" then { ttype := .prompt, raw := line }
  else
    match indexOfC ':' line with
    | some i =>
      let command := trimSpaceC (line.take i)
      let value := trimSpaceC (line.drop (i + 1))
      let values := (parseValues value).take MaxValues
      { ttype := if isURC command then .urc else .response,
        command := command, value := value, values := values, raw := line }
    | none =>
      if hasPrefC (strC "AT") line then
        { ttype := .command, command := line, raw := line }
      else { ttype := .data, raw := line }

/-- Bounding lemma for the value cap of `parseValues`: the accumulator
never grows past `MaxValues`. -/
lemma parseValuesAux_length_le :
    ∀ (s : List Char) (q : Bool) (b : List Char) (acc : List (List Char)),
      acc.length ≤ MaxValues → (parseValuesAux s q b acc).length ≤ MaxValues := by
  intro s
  induction s with
  | nil =>
    intro q b acc hacc
    simp only [parseValuesAux]
    split
    · next h => simp only [List.length_append, List.length_singleton]; omega
    · exact hacc
  | cons c cs ih =>
    intro q b acc hacc
    simp only [parseValuesAux]
    split
    · exact ih _ _ _ hacc
    · split
      · refine ih _ _ _ ?_
        split
        · next h => simp only [List.length_append, List.length_singleton]; omega
        · exact hacc
      · exact ih _ _ _ hacc

end Lexer

open Sim800l

/-! # Claim theorems -/

/-- C6 (code bug): the byte framer is supposed to skip only
effectively-empty lines and return every other CRLF-terminated line —
including the two-byte line "OK".  The code's `d.end <= 2` test instead
silently consumes any line of at most two content bytes, so framing the
stream "OK\r\n" (with or without a leading empty line) never yields a
Line unit and runs to the deadline, while a three-byte line is returned
as the claim describes. -/
theorem claim_C6_framer_skips_two_byte_lines :
    readLineB (strB "OK\r\n") = .timeout ∧
    readLineB (strB "\r\nOK\r\n") = .timeout ∧
    readLineB (strB "ABC\r\n") = .line (strB "ABC") [] ∧
    readLineB (strB "ERROR\r\nrest") = .line (strB "ERROR") (strB "rest") := by
  decide

/-- C8: the lexer's comma splitting of a keyed response value is
quote-aware and bounded: tokenizing `+COPS: 0,0,"28,403"` yields exactly
the three sub-values `0`, `0`, `"28,403"`; every input produces at most
`MaxValues = 8` sub-values; and excess values beyond the cap are
ignored. -/
theorem claim_C8_quote_aware_split :
    (Lexer.parseLineL (Lexer.strC "+COPS: 0,0,\"28,403\"")).values =
      [Lexer.strC "0", Lexer.strC "0", Lexer.strC "\"28,403\""] ∧
    (Lexer.parseLineL (Lexer.strC "+COPS: 0,0,\"28,403\"")).values.length = 3 ∧
    (∀ s : List Char, (Lexer.parseValues s).length ≤ Lexer.MaxValues) ∧
    Lexer.parseValues (Lexer.strC "1,2,3,4,5,6,7,8,9,10") =
      [Lexer.strC "1", Lexer.strC "2", Lexer.strC "3", Lexer.strC "4",
       Lexer.strC "5", Lexer.strC "6", Lexer.strC "7", Lexer.strC "8"] := by
  refine ⟨by decide, by decide, ?_, by decide⟩
  intro s
  exact Lexer.parseValuesAux_length_le s false [] [] (by decide)

/-- C9: `sendRaw` rejects every command longer than
`MaxCommandSize = 252` before writing anything to the transport, and for
every accepted command the bytes written are exactly the `AT` prefix
(prepended only when the uppercased command does not already begin with
it) followed by the uppercased command text and CRLF — the fixed
`MaxBufferSize` scratch buffer never truncates them. -/
theorem claim_C9_sendRaw_exact_bytes :
    ∀ (cmd : List Nat) (wf : Bool),
      (MaxCommandSize < cmd.length →
        sendRawB cmd wf =
          { res := some (.tooLong cmd.length), written := [], cmdAfter := cmd }) ∧
      (cmd.length ≤ MaxCommandSize →
        (sendRawB cmd wf).written =
          (if hasPrefB atToken (toUpperNoCopy cmd) then [] else atToken) ++
            toUpperNoCopy cmd ++ crlfB ∧
        (sendRawB cmd wf).written.length ≤ MaxBufferSize) := by
  intro cmd wf
  constructor
  · intro h
    simp only [sendRawB]
    rw [if_pos (by omega)]
  · intro h
    have hlen :
        ((if hasPrefB atToken (toUpperNoCopy cmd) then ([] : List Nat)
            else atToken) ++ toUpperNoCopy cmd ++ crlfB).length ≤
          MaxBufferSize := by
      simp only [List.length_append, toUpperNoCopy, List.length_map]
      have h2 : (crlfB).length = 2 := by decide
      have h3 : (atToken).length = 2 := by decide
      rw [h2]
      split
      · simp only [List.length_nil]
        simp only [MaxCommandSize, MaxBufferSize] at h ⊢
        omega
      · rw [h3]
        simp only [MaxCommandSize, MaxBufferSize] at h ⊢
        omega
    simp only [sendRawB]
    rw [if_neg (by omega)]
    exact ⟨List.take_of_length_le hlen, by rw [List.take_of_length_le hlen]; exact hlen⟩

/-- C9 witness: an accepted lowercase command is written as the `AT`
prefix plus its uppercase text plus CRLF. -/
theorem claim_C9_sendRaw_exact_bytes_witness :
    (sendRawB (strB "+cipmux=1") false).written = strB "AT+CIPMUX=1\r\n" := by
  have h := (claim_C9_sendRaw_exact_bytes (strB "+cipmux=1") false).2 (by decide)
  rw [h.1]
  decide

/-- C10 counterexample: a 253-byte all-lowercase command is rejected by
the length check of `sendRaw` before `toUpperNoCopy` runs, so the
caller's slice still contains lowercase letters after the call — the
claim's universal "every byte slice passed" is false. -/
theorem claim_C10_counterexample :
    (sendRawB (List.replicate 253 97) false).cmdAfter = List.replicate 253 97 ∧
    ¬ ∀ x ∈ (sendRawB (List.replicate 253 97) false).cmdAfter,
        ¬ (97 ≤ x ∧ x ≤ 122) := by
  set_option maxRecDepth 4000 in decide

/-- C10 (amended): for every byte slice that passes the
`MaxCommandSize` length check, `sendRaw` rewrites the caller's backing
array in place with `toUpperNoCopy`, after which it contains no
lowercase ASCII letter; an over-long slice is rejected before the
uppercasing and left unchanged. -/
theorem claim_C10_uppercase_in_place :
    ∀ (cmd : List Nat) (wf : Bool),
      (cmd.length ≤ MaxCommandSize →
        (sendRawB cmd wf).cmdAfter = toUpperNoCopy cmd ∧
        ∀ x ∈ (sendRawB cmd wf).cmdAfter, ¬ (97 ≤ x ∧ x ≤ 122)) ∧
      (MaxCommandSize < cmd.length → (sendRawB cmd wf).cmdAfter = cmd) := by
  intro cmd wf
  constructor
  · intro h
    have hcmd : (sendRawB cmd wf).cmdAfter = toUpperNoCopy cmd := by
      simp only [sendRawB]
      rw [if_neg (by omega)]
    refine ⟨hcmd, ?_⟩
    rw [hcmd]
    intro x hx
    simp only [toUpperNoCopy, List.mem_map] at hx
    obtain ⟨y, -, rfl⟩ := hx
    split
    · next hy =>
      simp only [Bool.and_eq_true, decide_eq_true_eq] at hy
      omega
    · next hy =>
      simp only [Bool.and_eq_true, decide_eq_true_eq] at hy
      omega
  · intro h
    simp only [sendRawB]
    rw [if_pos (by omega)]

/-- C10 amended witness: an in-range lowercase command really is
uppercased in the caller's buffer. -/
theorem claim_C10_uppercase_in_place_witness :
    (sendRawB (strB "at+csq") false).cmdAfter = strB "AT+CSQ" := by
  have h := (claim_C10_uppercase_in_place (strB "at+csq") false).1 (by decide)
  rw [h.1]
  decide

namespace Sim800l

/-- Setting slot `i` to `none` empties it (also when `i` is past the end,
where `getD` already yields `none`). -/
lemma getD_set_self (l : List (Option Connection)) (i : Nat) :
    (l.set i none).getD i none = none := by
  induction l generalizing i with
  | nil => rfl
  | cons x xs ih =>
    cases i with
    | zero => rfl
    | succ j => simpa using ih j

/-- Setting slot `i` leaves every other slot unchanged. -/
lemma getD_set_ne {α : Type} (d a : α) (l : List α) (i j : Nat) (h : j ≠ i) :
    (l.set i a).getD j d = l.getD j d := by
  induction l generalizing i j with
  | nil => rfl
  | cons x xs ih =>
    cases i with
    | zero =>
      cases j with
      | zero => omega
      | succ j' => simp [List.getD_cons_succ]
    | succ i' =>
      cases j with
      | zero => simp [List.getD_cons_zero]
      | succ j' =>
        simp only [List.set_cons_succ, List.getD_cons_succ]
        exact ih i' j' (by omega)

end Sim800l

/-- C2: for every connection id in range whose slot is occupied,
`CloseConnection` leaves slot `id` empty on every return path — whether
the `+CIPCLOSE` exchange succeeded or not — while every other slot, the
cached IP and the receive buffers are untouched, and a device-command
error is still returned (wrapped); for an id out of range or an
unoccupied slot it returns an error and changes no state. -/
theorem claim_C2_closeConnection_always_frees :
    ∀ (st : DeviceState) (cid : Nat) (ev : LineEvent) r st',
      CloseConnection st cid ev = (r, st') →
      ((cid < MaxConnections ∧ (st.conns.getD cid none).isSome) →
        st'.conns.getD cid none = none ∧
        (∀ j, j ≠ cid → st'.conns.getD j none = st.conns.getD j none) ∧
        st'.ip = st.ip ∧
        st'.recvBufs = st.recvBufs ∧
        (∀ e, sendM (cmdClipClose ++ natDigits cid) ev = some e →
          r = .error (.wrap "failed to close connection" e)) ∧
        (sendM (cmdClipClose ++ natDigits cid) ev = none → r = .ok ())) ∧
      ((MaxConnections ≤ cid ∨ st.conns.getD cid none = none) →
        r = .error (.invalidConnID cid) ∧ st' = st) := by
  intro st cid ev r st' heq
  by_cases hval : MaxConnections ≤ cid ∨ st.conns.getD cid none = none
  · have hcc : CloseConnection st cid ev = (.error (.invalidConnID cid), st) := by
      simp only [CloseConnection]
      rw [if_pos hval]
    rw [hcc] at heq
    obtain ⟨hr, hst⟩ := Prod.mk.inj heq
    constructor
    · intro hok
      exfalso
      rcases hval with h5 | hnone
      · omega
      · rw [hnone] at hok
        simp at hok
    · intro _
      exact ⟨hr.symm, hst.symm⟩
  · cases hres : sendM (cmdClipClose ++ natDigits cid) ev with
    | some e =>
      have hcc : CloseConnection st cid ev =
          (.error (.wrap "failed to close connection" e),
            { st with conns := st.conns.set cid none }) := by
        simp only [CloseConnection]
        rw [if_neg hval, hres]
      rw [hcc] at heq
      obtain ⟨hr, hst⟩ := Prod.mk.inj heq
      constructor
      · intro _
        refine ⟨?_, ?_, ?_, ?_, ?_, ?_⟩
        · rw [← hst]
          exact getD_set_self st.conns cid
        · intro j hj
          rw [← hst]
          exact getD_set_ne none none st.conns cid j hj
        · rw [← hst]
        · rw [← hst]
        · intro e' he'
          obtain rfl := Option.some.inj he'
          exact hr.symm
        · intro hnone
          exact absurd hnone (Option.some_ne_none e)
      · intro hinval
        exact absurd hinval hval
    | none =>
      have hcc : CloseConnection st cid ev =
          (.ok (), { st with conns := st.conns.set cid none }) := by
        simp only [CloseConnection]
        rw [if_neg hval, hres]
      rw [hcc] at heq
      obtain ⟨hr, hst⟩ := Prod.mk.inj heq
      constructor
      · intro _
        refine ⟨?_, ?_, ?_, ?_, ?_, ?_⟩
        · rw [← hst]
          exact getD_set_self st.conns cid
        · intro j hj
          rw [← hst]
          exact getD_set_ne none none st.conns cid j hj
        · rw [← hst]
        · rw [← hst]
        · intro e' he'
          exact absurd he'.symm (Option.some_ne_none e')
        · intro _
          exact hr.symm
      · intro hinval
        exact absurd hinval hval

/-- C2 witness: with slot 1 occupied and a device that answers `ERROR`
to the close command, the slot is still freed and the wrapped command
error is returned; the IP is untouched. -/
theorem claim_C2_closeConnection_always_frees_witness :
    ((CloseConnection
        ⟨"10.0.0.1",
         [none, some ⟨1, .tcp, .connected, "h", "80"⟩, none, none, none],
         List.replicate 5 []⟩ 1 (.line (strB "ERROR"))).2).conns.getD 1 none
      = none ∧
    (CloseConnection
        ⟨"10.0.0.1",
         [none, some ⟨1, .tcp, .connected, "h", "80"⟩, none, none, none],
         List.replicate 5 []⟩ 1 (.line (strB "ERROR"))).1 =
      .error (.wrap "failed to close connection" (.atError (strB "ERROR"))) := by
  have h := claim_C2_closeConnection_always_frees
    ⟨"10.0.0.1",
     [none, some ⟨1, .tcp, .connected, "h", "80"⟩, none, none, none],
     List.replicate 5 []⟩ 1 (.line (strB "ERROR")) _ _ rfl
  have hv := h.1 ⟨by decide, by decide⟩
  exact ⟨hv.1, hv.2.2.2.2.1 _ (by decide)⟩

namespace Sim800l

/-- Soundness of the free-slot scan: a hit is a free slot in range, and
every earlier slot the scan passed over was occupied. -/
lemma findFreeAux_some (conns : List (Option Connection)) :
    ∀ (fuel i cid : Nat), findFreeAux conns fuel i = some cid →
      conns.getD cid none = none ∧ i ≤ cid ∧ cid < MaxConnections ∧
      ∀ j, i ≤ j → j < cid → (conns.getD j none).isSome := by
  intro fuel
  induction fuel with
  | zero => intro i cid h; exact absurd h (by simp [findFreeAux])
  | succ fuel ih =>
    intro i cid h
    simp only [findFreeAux] at h
    by_cases hi : i < MaxConnections
    · rw [if_pos hi] at h
      by_cases hfree : conns.getD i none = none
      · rw [if_pos hfree] at h
        obtain rfl := Option.some.inj h
        exact ⟨hfree, Nat.le_refl _, hi, fun j h1 h2 => absurd h1 (by omega)⟩
      · rw [if_neg hfree] at h
        obtain ⟨h1, h2, h3, h4⟩ := ih (i + 1) cid h
        refine ⟨h1, by omega, h3, ?_⟩
        intro j hj1 hj2
        rcases Nat.eq_or_lt_of_le hj1 with rfl | hlt
        · exact Option.ne_none_iff_isSome.mp hfree
        · exact h4 j (by omega) hj2
    · rw [if_neg hi] at h
      exact absurd h (by simp)

/-- Completeness of the free-slot scan: a fully occupied table yields
`none`. -/
lemma findFreeAux_none (conns : List (Option Connection)) :
    ∀ (fuel i : Nat),
      (∀ j, i ≤ j → j < MaxConnections → (conns.getD j none).isSome) →
      findFreeAux conns fuel i = none := by
  intro fuel
  induction fuel with
  | zero => intro i _; rfl
  | succ fuel ih =>
    intro i hfull
    simp only [findFreeAux]
    by_cases hi : i < MaxConnections
    · rw [if_pos hi]
      have hocc := hfull i (Nat.le_refl _) hi
      rw [if_neg (Option.ne_none_iff_isSome.mpr hocc)]
      exact ih (i + 1) (fun j h1 h2 => hfull j (by omega) h2)
    · rw [if_neg hi]

/-- The `findFreeSlot` on a fully occupied table. -/
lemma findFreeSlot_none_of_full (conns : List (Option Connection))
    (h : ∀ j, j < MaxConnections → (conns.getD j none).isSome) :
    findFreeSlot conns = none :=
  findFreeAux_none conns MaxConnections 0 (fun j _ h2 => h j h2)

end Sim800l

/-- C1 (amended): a successful `Dial` stores the new Connected
connection in the lowest slot that was free before the call (all lower
slots were occupied, the chosen slot was empty, and only it is written);
when the cached address is non-empty and all 5 slots are occupied, it
fails with the max-connections error without any device interaction; and
on any failure the state — connection table included — is exactly the
pre-call state.  (As stated, with an empty cached address and a full
table the no-address error takes precedence over max-connections; see
the counterexample.) -/
theorem claim_C1_dial_slot_discipline :
    ∀ (st : DeviceState) (network address : String)
      (shp : String → Except GoError (String × String))
      (ev1 ev2 : LineEvent) r st',
      Dial st network address shp ev1 ev2 = (r, st') →
      (∀ c, r = .ok c →
        st.conns.getD c.id none = none ∧
        (∀ j, j < c.id → (st.conns.getD j none).isSome) ∧
        c.id < MaxConnections ∧
        c.cstate = .connected ∧
        st'.conns = st.conns.set c.id (some c) ∧
        st'.ip = st.ip ∧ st'.recvBufs = st.recvBufs) ∧
      (st.ip ≠ "" → (∀ j, j < MaxConnections → (st.conns.getD j none).isSome) →
        r = .error .maxConn ∧ st' = st) ∧
      (∀ e, r = .error e → st' = st) := by
  intro st network address shp ev1 ev2 r st' heq
  by_cases hip : st.ip = ""
  · have hD : Dial st network address shp ev1 ev2 = (.error .noIP, st) := by
      simp only [Dial, if_pos hip]
    rw [hD] at heq
    obtain ⟨hr, hst⟩ := Prod.mk.inj heq
    refine ⟨?_, ?_, ?_⟩
    · intro c hc
      rw [← hr] at hc
      simp at hc
    · intro hne _
      exact absurd hip hne
    · intro e _
      exact hst.symm
  · cases hfs : findFreeSlot st.conns with
    | none =>
      have hD : Dial st network address shp ev1 ev2 = (.error .maxConn, st) := by
        simp only [Dial, if_neg hip, hfs]
      rw [hD] at heq
      obtain ⟨hr, hst⟩ := Prod.mk.inj heq
      refine ⟨?_, ?_, ?_⟩
      · intro c hc
        rw [← hr] at hc
        simp at hc
      · intro _ _
        exact ⟨hr.symm, hst.symm⟩
      · intro e _
        exact hst.symm
    | some cid =>
      obtain ⟨hfree, -, hlt, hbelow⟩ :=
        findFreeAux_some st.conns MaxConnections 0 cid hfs
      cases hct : parseConnType network with
      | none =>
        have hD : Dial st network address shp ev1 ev2 =
            (.error (.unsupportedNetwork network), st) := by
          simp only [Dial, if_neg hip, hfs, hct]
        rw [hD] at heq
        obtain ⟨hr, hst⟩ := Prod.mk.inj heq
        refine ⟨?_, ?_, ?_⟩
        · intro c hc
          rw [← hr] at hc
          simp at hc
        · intro _ hfull
          exact absurd hfs (by rw [findFreeSlot_none_of_full st.conns hfull]; simp)
        · intro e _
          exact hst.symm
      | some ct =>
        cases hshp : shp address with
        | error e0 =>
          have hD : Dial st network address shp ev1 ev2 =
              (.error (.wrap "invalid address format" e0), st) := by
            simp only [Dial, if_neg hip, hfs, hct, hshp]
          rw [hD] at heq
          obtain ⟨hr, hst⟩ := Prod.mk.inj heq
          refine ⟨?_, ?_, ?_⟩
          · intro c hc
            rw [← hr] at hc
            simp at hc
          · intro _ hfull
            exact absurd hfs
              (by rw [findFreeSlot_none_of_full st.conns hfull]; simp)
          · intro e _
            exact hst.symm
        | ok hp =>
          obtain ⟨host, port⟩ := hp
          cases hsend : sendM
              (dialCmd cid (if ct = .udp then "UDP" else "TCP") host port) ev1 with
          | some e0 =>
            have hD : Dial st network address shp ev1 ev2 =
                (.error (.wrap "failed to start connection" e0), st) := by
              simp only [Dial, if_neg hip, hfs, hct, hshp, hsend]
            rw [hD] at heq
            obtain ⟨hr, hst⟩ := Prod.mk.inj heq
            refine ⟨?_, ?_, ?_⟩
            · intro c hc
              rw [← hr] at hc
              simp at hc
            · intro _ hfull
              exact absurd hfs
                (by rw [findFreeSlot_none_of_full st.conns hfull]; simp)
            · intro e _
              exact hst.symm
          | none =>
            cases hrr : readResponseM cmdClipStart (some dialCheck) ev2 with
            | some e0 =>
              have hD : Dial st network address shp ev1 ev2 =
                  (.error (.wrap "connection failed" e0), st) := by
                simp only [Dial, if_neg hip, hfs, hct, hshp, hsend, hrr]
              rw [hD] at heq
              obtain ⟨hr, hst⟩ := Prod.mk.inj heq
              refine ⟨?_, ?_, ?_⟩
              · intro c hc
                rw [← hr] at hc
                simp at hc
              · intro _ hfull
                exact absurd hfs
                  (by rw [findFreeSlot_none_of_full st.conns hfull]; simp)
              · intro e _
                exact hst.symm
            | none =>
              have hD : Dial st network address shp ev1 ev2 =
                  (.ok ⟨cid, ct, .connected, host, port⟩,
                    { st with
                      conns := st.conns.set cid (some ⟨cid, ct, .connected, host, port⟩) }) := by
                simp only [Dial, if_neg hip, hfs, hct, hshp, hsend, hrr]
              rw [hD] at heq
              obtain ⟨hr, hst⟩ := Prod.mk.inj heq
              refine ⟨?_, ?_, ?_⟩
              · intro c hc
                rw [← hr] at hc
                obtain rfl := (Except.ok.inj hc).symm
                exact ⟨hfree, fun j hj => hbelow j (Nat.zero_le j) hj, hlt,
                  rfl, by rw [← hst], by rw [← hst], by rw [← hst]⟩
              · intro _ hfull
                exact absurd hfs
                  (by rw [findFreeSlot_none_of_full st.conns hfull]; simp)
              · intro e he
                rw [← hr] at he
                simp at he

/-- C1 counterexample: with an empty cached address and all five slots
occupied, `Dial` fails with the no-address error, not the
max-connections error the claim promises for every device state with a
full table. -/
theorem claim_C1_counterexample :
    (Dial
        ⟨"",
         [some ⟨0, .tcp, .connected, "h", "1"⟩, some ⟨1, .tcp, .connected, "h", "1"⟩,
          some ⟨2, .tcp, .connected, "h", "1"⟩, some ⟨3, .tcp, .connected, "h", "1"⟩,
          some ⟨4, .tcp, .connected, "h", "1"⟩],
         List.replicate 5 []⟩
        "tcp" "example.com:80" (fun _ => .ok ("example.com", "80"))
        (.line (strB "OK")) (.line (strB "0, CONNECT OK"))).1 =
      .error .noIP ∧
    GoError.noIP ≠ GoError.maxConn := by
  exact ⟨rfl, by decide⟩

/-- C1 witness: with a non-empty cached address and a full table, `Dial`
does fail with the max-connections error and leaves the state untouched. -/
theorem claim_C1_dial_slot_discipline_witness :
    (Dial
        ⟨"10.0.0.1",
         [some ⟨0, .tcp, .connected, "h", "1"⟩, some ⟨1, .tcp, .connected, "h", "1"⟩,
          some ⟨2, .tcp, .connected, "h", "1"⟩, some ⟨3, .tcp, .connected, "h", "1"⟩,
          some ⟨4, .tcp, .connected, "h", "1"⟩],
         List.replicate 5 []⟩
        "tcp" "example.com:80" (fun _ => .ok ("example.com", "80"))
        (.line (strB "OK")) (.line (strB "0, CONNECT OK"))).1 =
      .error .maxConn ∧
    (Dial
        ⟨"10.0.0.1",
         [some ⟨0, .tcp, .connected, "h", "1"⟩, some ⟨1, .tcp, .connected, "h", "1"⟩,
          some ⟨2, .tcp, .connected, "h", "1"⟩, some ⟨3, .tcp, .connected, "h", "1"⟩,
          some ⟨4, .tcp, .connected, "h", "1"⟩],
         List.replicate 5 []⟩
        "tcp" "example.com:80" (fun _ => .ok ("example.com", "80"))
        (.line (strB "OK")) (.line (strB "0, CONNECT OK"))).2 =
      ⟨"10.0.0.1",
       [some ⟨0, .tcp, .connected, "h", "1"⟩, some ⟨1, .tcp, .connected, "h", "1"⟩,
        some ⟨2, .tcp, .connected, "h", "1"⟩, some ⟨3, .tcp, .connected, "h", "1"⟩,
        some ⟨4, .tcp, .connected, "h", "1"⟩],
       List.replicate 5 []⟩ := by
  have h := claim_C1_dial_slot_discipline
    ⟨"10.0.0.1",
     [some ⟨0, .tcp, .connected, "h", "1"⟩, some ⟨1, .tcp, .connected, "h", "1"⟩,
      some ⟨2, .tcp, .connected, "h", "1"⟩, some ⟨3, .tcp, .connected, "h", "1"⟩,
      some ⟨4, .tcp, .connected, "h", "1"⟩],
     List.replicate 5 []⟩
    "tcp" "example.com:80" (fun _ => .ok ("example.com", "80"))
    (.line (strB "OK")) (.line (strB "0, CONNECT OK")) _ _ rfl
  exact h.2.1 (by decide) (by decide)

namespace Sim800l

/-- The `CloseConnection` never touches the cached IP. -/
lemma closeConnection_snd_ip (s : DeviceState) (i : Nat) (e : LineEvent) :
    ((CloseConnection s i e).2).ip = s.ip := by
  by_cases h : MaxConnections ≤ i ∨ s.conns.getD i none = none
  · simp only [CloseConnection, if_pos h]
  · simp only [CloseConnection, if_neg h]
    cases hsm : sendM (cmdClipClose ++ natDigits i) e <;> rfl

/-- The `CloseConnection` never touches the receive buffers. -/
lemma closeConnection_snd_recvBufs (s : DeviceState) (i : Nat) (e : LineEvent) :
    ((CloseConnection s i e).2).recvBufs = s.recvBufs := by
  by_cases h : MaxConnections ≤ i ∨ s.conns.getD i none = none
  · simp only [CloseConnection, if_pos h]
  · simp only [CloseConnection, if_neg h]
    cases hsm : sendM (cmdClipClose ++ natDigits i) e <;> rfl

/-- On a valid occupied slot, `CloseConnection` rewrites the table by
clearing exactly that slot. -/
lemma closeConnection_snd_conns (s : DeviceState) (i : Nat) (e : LineEvent)
    (h1 : i < MaxConnections) (h2 : (s.conns.getD i none).isSome) :
    ((CloseConnection s i e).2).conns = s.conns.set i none := by
  have h : ¬(MaxConnections ≤ i ∨ s.conns.getD i none = none) := by
    push_neg
    exact ⟨by omega, Option.ne_none_iff_isSome.mpr h2⟩
  simp only [CloseConnection, if_neg h]
  cases hsm : sendM (cmdClipClose ++ natDigits i) e <;> rfl

/-- One close-loop step preserves the IP. -/
lemma closeStep_ip (ev : Nat → LineEvent) (s : DeviceState) (i : Nat) :
    (closeStep ev s i).ip = s.ip := by
  simp only [closeStep]
  split
  · exact closeConnection_snd_ip s i (ev i)
  · rfl

/-- One close-loop step preserves the receive buffers. -/
lemma closeStep_recvBufs (ev : Nat → LineEvent) (s : DeviceState) (i : Nat) :
    (closeStep ev s i).recvBufs = s.recvBufs := by
  simp only [closeStep]
  split
  · exact closeConnection_snd_recvBufs s i (ev i)
  · rfl

/-- One close-loop step empties its own slot (for in-range ids). -/
lemma closeStep_getD_self (ev : Nat → LineEvent) (s : DeviceState) (i : Nat)
    (h : i < MaxConnections) :
    (closeStep ev s i).conns.getD i none = none := by
  simp only [closeStep]
  split
  · next hocc =>
    rw [closeConnection_snd_conns s i (ev i) h hocc]
    exact getD_set_self s.conns i
  · next hocc =>
    exact Option.not_isSome_iff_eq_none.mp hocc

/-- One close-loop step leaves every other slot unchanged. -/
lemma closeStep_getD_ne (ev : Nat → LineEvent) (s : DeviceState) (i j : Nat)
    (h : j ≠ i) :
    (closeStep ev s i).conns.getD j none = s.conns.getD j none := by
  simp only [closeStep]
  split
  · next hocc =>
    by_cases hval : MaxConnections ≤ i ∨ s.conns.getD i none = none
    · simp only [CloseConnection, if_pos hval]
    · simp only [CloseConnection, if_neg hval]
      cases hsm : sendM (cmdClipClose ++ natDigits i) (ev i)
      · exact getD_set_ne none none s.conns i j h
      · exact getD_set_ne none none s.conns i j h
  · rfl

/-- Behaviour of the close-all fold: IP and receive buffers pass
through, slots outside the visited list are untouched, and (for a
duplicate-free in-range list) every visited slot ends empty. -/
lemma closeFold_spec (ev : Nat → LineEvent) :
    ∀ (l : List Nat) (s : DeviceState),
      ((l.foldl (closeStep ev) s).ip = s.ip) ∧
      ((l.foldl (closeStep ev) s).recvBufs = s.recvBufs) ∧
      (∀ j, j ∉ l →
        (l.foldl (closeStep ev) s).conns.getD j none = s.conns.getD j none) ∧
      ((∀ i ∈ l, i < MaxConnections) → l.Nodup →
        ∀ j ∈ l, (l.foldl (closeStep ev) s).conns.getD j none = none) := by
  intro l
  induction l with
  | nil =>
    intro s
    refine ⟨rfl, rfl, fun j _ => rfl, fun _ _ j hj => absurd hj (by simp)⟩
  | cons x xs ih =>
    intro s
    simp only [List.foldl_cons]
    obtain ⟨hip, hbufs, hne, hmem⟩ := ih (closeStep ev s x)
    refine ⟨?_, ?_, ?_, ?_⟩
    · rw [hip, closeStep_ip]
    · rw [hbufs, closeStep_recvBufs]
    · intro j hj
      have hjx : j ≠ x := fun hc => hj (hc ▸ List.mem_cons_self x xs)
      have hjxs : j ∉ xs := fun hc => hj (List.mem_cons_of_mem x hc)
      rw [hne j hjxs, closeStep_getD_ne ev s x j hjx]
    · intro hlt hnodup j hj
      rcases List.mem_cons.mp hj with rfl | hjxs
      · have hxxs : j ∉ xs := (List.nodup_cons.mp hnodup).1
        rw [hne j hxxs]
        exact closeStep_getD_self ev s j (hlt j (List.mem_cons_self j xs))
      · exact hmem (fun i hi => hlt i (List.mem_cons_of_mem x hi))
          (List.nodup_cons.mp hnodup).2 j hjxs

/-- The `closeAll` empties every slot and preserves IP and buffers. -/
lemma closeAll_spec (st : DeviceState) (ev : Nat → LineEvent) :
    (closeAll st ev).ip = st.ip ∧
    (closeAll st ev).recvBufs = st.recvBufs ∧
    ∀ j, j < MaxConnections → (closeAll st ev).conns.getD j none = none := by
  obtain ⟨hip, hbufs, -, hmem⟩ := closeFold_spec ev (List.range MaxConnections) st
  refine ⟨hip, hbufs, ?_⟩
  intro j hj
  exact hmem (fun i hi => List.mem_range.mp hi) (List.nodup_range _) j
    (List.mem_range.mpr hj)

end Sim800l

/-- C4 (amended): `Disconnect` closes every occupied slot ignoring the
individual close errors — on every return path all 5 slots end empty —
but it returns early when the bearer-teardown (`+CIPSHUT`) or detach
(`+CGATT=0`) command fails, and on those paths the cached address is NOT
cleared: the IP field becomes empty exactly when both commands
succeed. -/
theorem claim_C4_disconnect_cleanup :
    ∀ (st : DeviceState) (evC : Nat → LineEvent) (evS evD : LineEvent) r st',
      Disconnect st evC evS evD = (r, st') →
      (∀ j, j < MaxConnections → st'.conns.getD j none = none) ∧
      (∀ e, sendM cmdShutPdp evS = some e →
        r = .error (.wrap "failed to shut down PDP context" e) ∧
        st'.ip = st.ip) ∧
      (∀ e, sendM cmdShutPdp evS = none → sendM cmdGprsDetach evD = some e →
        r = .error (.wrap "failed to detach from GPRS" e) ∧ st'.ip = st.ip) ∧
      (sendM cmdShutPdp evS = none → sendM cmdGprsDetach evD = none →
        r = .ok () ∧ st'.ip = "") := by
  intro st evC evS evD r st' heq
  obtain ⟨hip, -, hslots⟩ := closeAll_spec st evC
  cases hS : sendM cmdShutPdp evS with
  | some e0 =>
    have hD : Disconnect st evC evS evD =
        (.error (.wrap "failed to shut down PDP context" e0), closeAll st evC) := by
      simp only [Disconnect, hS]
    rw [hD] at heq
    obtain ⟨hr, hst⟩ := Prod.mk.inj heq
    refine ⟨?_, ?_, ?_, ?_⟩
    · intro j hj
      rw [← hst]
      exact hslots j hj
    · intro e he
      obtain rfl := Option.some.inj he
      exact ⟨hr.symm, by rw [← hst]; exact hip⟩
    · intro e he _
      exact absurd he (by simp)
    · intro he _
      exact absurd he (by simp)
  | none =>
    cases hDt : sendM cmdGprsDetach evD with
    | some e0 =>
      have hD : Disconnect st evC evS evD =
          (.error (.wrap "failed to detach from GPRS" e0), closeAll st evC) := by
        simp only [Disconnect, hS, hDt]
      rw [hD] at heq
      obtain ⟨hr, hst⟩ := Prod.mk.inj heq
      refine ⟨?_, ?_, ?_, ?_⟩
      · intro j hj
        rw [← hst]
        exact hslots j hj
      · intro e he
        exact absurd he.symm (Option.some_ne_none e)
      · intro e _ he
        obtain rfl := Option.some.inj he
        exact ⟨hr.symm, by rw [← hst]; exact hip⟩
      · intro _ he
        exact absurd he (by simp)
    | none =>
      have hD : Disconnect st evC evS evD =
          (.ok (), { closeAll st evC with ip := "" }) := by
        simp only [Disconnect, hS, hDt]
      rw [hD] at heq
      obtain ⟨hr, hst⟩ := Prod.mk.inj heq
      refine ⟨?_, ?_, ?_, ?_⟩
      · intro j hj
        rw [← hst]
        exact hslots j hj
      · intro e he
        exact absurd he.symm (Option.some_ne_none e)
      · intro e _ he
        exact absurd he.symm (Option.some_ne_none e)
      · intro _ _
        exact ⟨hr.symm, by rw [← hst]⟩

/-- C4 counterexample: when the `+CIPSHUT` exchange answers `ERROR`,
`Disconnect` returns on that path with the cached address still set —
the claim's "clears the IP field on every return path" is false. -/
theorem claim_C4_counterexample :
    (Disconnect ⟨"10.0.0.1", List.replicate 5 none, List.replicate 5 []⟩
        (fun _ => .line (strB "OK")) (.line (strB "ERROR"))
        (.line (strB "OK"))).2.ip = "10.0.0.1" ∧
    ("10.0.0.1" : String) ≠ "" := by
  exact ⟨rfl, by decide⟩

/-- C4 witness: on the all-success path `Disconnect` empties the table,
returns success and clears the cached address. -/
theorem claim_C4_disconnect_cleanup_witness :
    (Disconnect
        ⟨"10.0.0.1",
         [some ⟨0, .tcp, .connected, "h", "1"⟩, none, none, none, none],
         List.replicate 5 []⟩
        (fun _ => .line (strB "OK")) (.line (strB "OK"))
        (.line (strB "OK"))).1 = .ok () ∧
    (Disconnect
        ⟨"10.0.0.1",
         [some ⟨0, .tcp, .connected, "h", "1"⟩, none, none, none, none],
         List.replicate 5 []⟩
        (fun _ => .line (strB "OK")) (.line (strB "OK"))
        (.line (strB "OK"))).2.ip = "" ∧
    (Disconnect
        ⟨"10.0.0.1",
         [some ⟨0, .tcp, .connected, "h", "1"⟩, none, none, none, none],
         List.replicate 5 []⟩
        (fun _ => .line (strB "OK")) (.line (strB "OK"))
        (.line (strB "OK"))).2.conns.getD 0 none = none := by
  have h := claim_C4_disconnect_cleanup
    ⟨"10.0.0.1",
     [some ⟨0, .tcp, .connected, "h", "1"⟩, none, none, none, none],
     List.replicate 5 []⟩
    (fun _ => .line (strB "OK")) (.line (strB "OK")) (.line (strB "OK"))
    _ _ rfl
  obtain ⟨hok, hipp⟩ := h.2.2.2 (by decide) (by decide)
  exact ⟨hok, hipp, h.1 0 (by decide)⟩

/-- C7 (amended): in the Seeking state the demultiplexer reads one
discrete unit; if no complete line appears before the deadline it
returns Timeout with the state untouched, but a complete line that is
not a valid `+RECEIVE` preamble does NOT keep the scan going — it aborts
immediately with that line's parse error, which is never the Timeout
value. -/
theorem claim_C7_seeking_aborts :
    ∀ (st : DeviceState) (input : List Nat),
      (readLineB input = .timeout →
        checkForReceivedData st input = (.error .timeout, st)) ∧
      (∀ content rest e, readLineB input = .line content rest →
        parseReceive content = .error e →
        checkForReceivedData st input = (.error e, st)) ∧
      (∀ content, parseReceive content ≠ .error .timeout) := by
  intro st input
  refine ⟨?_, ?_, ?_⟩
  · intro h
    simp only [checkForReceivedData, h]
  · intro content rest e h1 h2
    simp only [checkForReceivedData, h1, handleReceiveLine, h2]
  · intro content hcontra
    simp only [parseReceive] at hcontra
    split at hcontra
    · simp at hcontra
    · split at hcontra
      · simp at hcontra
      · split at hcontra
        · simp at hcontra
        · split at hcontra
          · simp at hcontra
          · split at hcontra
            · simp at hcontra
            · split at hcontra
              · simp at hcontra
              · split at hcontra
                · simp at hcontra
                · simp at hcontra

/-- C7 counterexample: a complete line that is not a `+RECEIVE`
preamble makes the scan return an explicit format error — a non-Timeout
error — instead of continuing to look for a preamble. -/
theorem claim_C7_counterexample :
    (checkForReceivedData
        ⟨"1.1.1.1", List.replicate 5 none, List.replicate 5 []⟩
        (strB "HELLO\r\n")).1 = .error (.receiveFormat (strB "HELLO")) ∧
    GoError.receiveFormat (strB "HELLO") ≠ .timeout := by
  exact ⟨rfl, by decide⟩

/-- C7 witness: both amended paths at concrete inputs — an exhausted
stream yields Timeout, and a non-preamble line yields its format
error with the state unchanged. -/
theorem claim_C7_seeking_aborts_witness :
    checkForReceivedData
        ⟨"2.2.2.2", List.replicate 5 none, List.replicate 5 []⟩ [] =
      (.error .timeout, ⟨"2.2.2.2", List.replicate 5 none, List.replicate 5 []⟩) ∧
    checkForReceivedData
        ⟨"2.2.2.2", List.replicate 5 none, List.replicate 5 []⟩
        (strB "XYZ\r\n") =
      (.error (.receiveFormat (strB "XYZ")),
        ⟨"2.2.2.2", List.replicate 5 none, List.replicate 5 []⟩) := by
  have h1 := (claim_C7_seeking_aborts
    ⟨"2.2.2.2", List.replicate 5 none, List.replicate 5 []⟩ []).1 (by decide)
  have h2 := (claim_C7_seeking_aborts
    ⟨"2.2.2.2", List.replicate 5 none, List.replicate 5 []⟩
    (strB "XYZ\r\n")).2.1 (strB "XYZ") [] (.receiveFormat (strB "XYZ"))
    (by decide) rfl
  exact ⟨h1, h2⟩

namespace Sim800l

/-- A parsed digit string contains only ASCII digit bytes. -/
lemma digitsValB_mem :
    ∀ (ds : List Nat) (n : Nat), digitsValB ds = some n →
      ∀ b ∈ ds, 48 ≤ b ∧ b ≤ 57 := by
  intro ds
  induction ds with
  | nil => intro n h; simp [digitsValB] at h
  | cons d rest ih =>
    intro n h b hb
    cases rest with
    | nil =>
      simp only [digitsValB] at h
      split at h
      · next hd =>
        rcases List.mem_singleton.mp hb with rfl
        exact hd
      · exact absurd h (by simp)
    | cons d2 rest2 =>
      simp only [digitsValB] at h
      split at h
      · next hd =>
        rcases List.mem_cons.mp hb with rfl | hb2
        · exact hd
        · obtain ⟨v, hv, -⟩ := Option.map_eq_some'.mp h
          exact ih v hv b hb2
      · exact absurd h (by simp)

/-- The `splitBAux` over a separator-free tail yields one final field. -/
lemma splitBAux_no_sep (sep : Nat) :
    ∀ (l acc : List Nat), (∀ b ∈ l, ¬ b = sep) →
      splitBAux sep l acc = [acc.reverse ++ l] := by
  intro l
  induction l with
  | nil => intro acc _; simp [splitBAux]
  | cons b bs ih =>
    intro acc hsep
    have hb : ¬ b = sep := hsep b (List.mem_cons_self b bs)
    have hbne : ¬ ((b == sep) = true) := by simp [hb]
    simp only [splitBAux, if_neg hbne]
    rw [ih (b :: acc) (fun x hx => hsep x (List.mem_cons_of_mem b hx))]
    simp

/-- The `splitBAux` splits off a separator-free field at the separator. -/
lemma splitBAux_sep_split (sep : Nat) :
    ∀ (l1 l2 acc : List Nat), (∀ b ∈ l1, ¬ b = sep) →
      splitBAux sep (l1 ++ sep :: l2) acc =
        (acc.reverse ++ l1) :: splitBAux sep l2 [] := by
  intro l1
  induction l1 with
  | nil =>
    intro l2 acc _
    simp [splitBAux]
  | cons b bs ih =>
    intro l2 acc hsep
    have hb : ¬ b = sep := hsep b (List.mem_cons_self b bs)
    have hbne : ¬ ((b == sep) = true) := by simp [hb]
    simp only [List.cons_append, splitBAux, if_neg hbne]
    rw [show bs.append (sep :: l2) = bs ++ sep :: l2 from rfl]
    rw [ih l2 (b :: acc) (fun x hx => hsep x (List.mem_cons_of_mem b hx))]
    simp

/-- Splitting the constructed `+RECEIVE,0,<digits>:` line on commas. -/
lemma splitB_mkReceiveLine (ds : List Nat) (hds : ∀ b ∈ ds, ¬ b = 44) :
    splitB 44 (mkReceiveLine ds) = [receiveToken, [48], ds ++ [58]] := by
  have h1 : ∀ b ∈ receiveToken, ¬ b = 44 := by decide
  have h2 : ∀ b ∈ [48], ¬ b = (44 : Nat) := by decide
  have h3 : ∀ b ∈ ds ++ [58], ¬ b = 44 := by
    intro b hb
    rcases List.mem_append.mp hb with hb1 | hb2
    · exact hds b hb1
    · rcases List.mem_singleton.mp hb2 with rfl
      omega
  show splitBAux 44 (receiveToken ++ 44 :: 48 :: 44 :: (ds ++ [58])) [] =
    [receiveToken, [48], ds ++ [58]]
  rw [splitBAux_sep_split 44 receiveToken (48 :: 44 :: (ds ++ [58])) [] h1]
  have : (48 : Nat) :: 44 :: (ds ++ [58]) = [48] ++ 44 :: (ds ++ [58]) := rfl
  rw [this, splitBAux_sep_split 44 [48] (ds ++ [58]) [] h2]
  rw [splitBAux_no_sep 44 (ds ++ [58]) [] h3]
  simp

/-- Index of the colon terminating the announced length. -/
lemma indexOfB_append_self (b : Nat) :
    ∀ (l : List Nat), (∀ x ∈ l, ¬ x = b) →
      indexOfB b (l ++ [b]) = some l.length := by
  intro l
  induction l with
  | nil => simp [indexOfB]
  | cons x xs ih =>
    intro hx
    have hxb : ¬ x = b := hx x (List.mem_cons_self x xs)
    have hxbne : ¬ ((x == b) = true) := by simp [hxb]
    simp only [List.cons_append, indexOfB, if_neg hxbne]
    rw [show xs.append [b] = xs ++ [b] from rfl]
    rw [ih (fun y hy => hx y (List.mem_cons_of_mem x hy))]
    simp

/-- The `strconv.Atoi` on a bare digit string returns its value. -/
lemma atoiB_digits (ds : List Nat) (n : Nat) (h : digitsValB ds = some n) :
    atoiB ds = some (n : Int) := by
  cases ds with
  | nil => exact absurd h (by simp [digitsValB])
  | cons d rest =>
    have hd := digitsValB_mem (d :: rest) n h d (List.mem_cons_self d rest)
    simp only [atoiB, if_neg (by omega : ¬ d = 43), if_neg (by omega : ¬ d = 45)]
    rw [h]
    rfl

end Sim800l

/-- C3 (amended): a well-formed `+RECEIVE,0,<len>:` preamble whose
announced length is positive is accepted — the scan resets the target
buffer and proceeds to drain the payload — exactly when the length is at
most `MaxBufferSize = 256` (the UART scratch-buffer bound the code
actually checks), and is rejected with the explicit too-long error
whenever it exceeds 256, even though the per-connection capacity
`RecvBufSize` is 1024. -/
theorem claim_C3_receive_length_bound :
    ∀ (ds : List Nat) (n : Nat) (st : DeviceState) (rest : List Nat),
      digitsValB ds = some n → 1 ≤ n →
      (n ≤ MaxBufferSize →
        parseReceive (mkReceiveLine ds) = .ok (0, n) ∧
        handleReceiveLine st (mkReceiveLine ds) rest =
          ((drainLoop 0 n (st.recvBufs.set 0 []) rest).1,
            { st with recvBufs := (drainLoop 0 n (st.recvBufs.set 0 []) rest).2 })) ∧
      (MaxBufferSize < n →
        parseReceive (mkReceiveLine ds) = .error (.receiveTooLong n) ∧
        handleReceiveLine st (mkReceiveLine ds) rest =
          (.error (.receiveTooLong n), st)) := by
  intro ds n st rest hds hpos
  have hmem := digitsValB_mem ds n hds
  have hno44 : ∀ b ∈ ds, ¬ b = 44 := fun b hb => by have := hmem b hb; omega
  have hno58 : ∀ b ∈ ds, ¬ b = 58 := fun b hb => by have := hmem b hb; omega
  have hsplit := splitB_mkReceiveLine ds hno44
  have hpr : parseReceive (mkReceiveLine ds) =
      if (MaxBufferSize : Int) < (n : Int) then
        .error (.receiveTooLong ((n : Int)).toNat)
      else .ok (((0 : Int)).toNat, ((n : Int)).toNat) := by
    simp only [parseReceive, hsplit, List.getD_cons_zero, List.getD_cons_succ]
    have hpref : hasPrefB receiveToken receiveToken = true := by decide
    have hc1 : ¬([receiveToken, [48], ds ++ [58]].length < 3 ∨
        ¬hasPrefB receiveToken receiveToken = true) := by simp [hpref]
    rw [if_neg hc1, show atoiB (trimSpaceB [48]) = some 0 from rfl]
    simp only []
    have hc2 : ¬((0 : Int) < 0 ∨ (MaxConnections : Int) ≤ (0 : Int)) := by decide
    rw [if_neg hc2, indexOfB_append_self 58 ds hno58]
    simp only []
    rw [List.take_left, atoiB_digits ds n hds]
    simp only []
    have hc3 : ¬ ((n : Int) ≤ 0) := by omega
    rw [if_neg hc3]
  constructor
  · intro hle
    have hnotlt : ¬ ((MaxBufferSize : Int) < (n : Int)) := by
      have : (MaxBufferSize : Int) = 256 := rfl
      rw [this]
      simp only [MaxBufferSize] at hle
      omega
    have hok : parseReceive (mkReceiveLine ds) = .ok (0, n) := by
      rw [hpr, if_neg hnotlt]
      simp
    refine ⟨hok, ?_⟩
    simp only [handleReceiveLine, hok]
  · intro hlt
    have hltI : (MaxBufferSize : Int) < (n : Int) := by
      have : (MaxBufferSize : Int) = 256 := rfl
      rw [this]
      simp only [MaxBufferSize] at hlt
      omega
    have herr : parseReceive (mkReceiveLine ds) = .error (.receiveTooLong n) := by
      rw [hpr, if_pos hltI]
      simp
    refine ⟨herr, ?_⟩
    simp only [handleReceiveLine, herr]

/-- C3 counterexample: an announced length of 300 — positive and well
below the per-connection capacity `RecvBufSize = 1024` the claim cites —
is rejected with the explicit too-long error instead of being drained,
because the code compares against `MaxBufferSize = 256`. -/
theorem claim_C3_counterexample :
    (checkForReceivedData
        ⟨"1.1.1.1",
         [some ⟨0, .tcp, .connected, "h", "1"⟩, none, none, none, none],
         List.replicate 5 []⟩
        (strB "+RECEIVE,0,300:\r\n" ++ List.replicate 300 65)).1 =
      .error (.receiveTooLong 300) ∧
    300 ≤ RecvBufSize := by
  exact ⟨rfl, by decide⟩

/-- C3 witness: length 4 is accepted, length 300 is rejected. -/
theorem claim_C3_receive_length_bound_witness :
    parseReceive (mkReceiveLine (strB "4")) = .ok (0, 4) ∧
    parseReceive (mkReceiveLine (strB "300")) = .error (.receiveTooLong 300) := by
  have h1 := (claim_C3_receive_length_bound (strB "4") 4
    ⟨"1.1.1.1", List.replicate 5 none, List.replicate 5 []⟩ []
    (by decide) (by decide)).1 (by decide)
  have h2 := (claim_C3_receive_length_bound (strB "300") 300
    ⟨"1.1.1.1", List.replicate 5 none, List.replicate 5 []⟩ []
    (by decide) (by decide)).2 (by decide)
  exact ⟨h1.1, h2.1⟩

namespace Sim800l

/-- Digit-count bound for the decimal rendering. -/
lemma natDigitsAux_length :
    ∀ (fuel n k : Nat), n ≤ fuel → n < 10 ^ k →
      (natDigitsAux fuel n).length ≤ max 1 k := by
  intro fuel
  induction fuel with
  | zero =>
    intro n k _ _
    simp [natDigitsAux]
  | succ fuel ih =>
    intro n k hn hk
    simp only [natDigitsAux]
    split
    · simp
    · next h10 =>
      push_neg at h10
      rcases k with - | - | k'
      · simp at hk
        omega
      · have : n < 10 := by simpa using hk
        omega
      · have hdiv : n / 10 < 10 ^ (k' + 1) := by
          have h1 : n < 10 * 10 ^ (k' + 1) := by
            calc n < 10 ^ (k' + 2) := hk
            _ = 10 * 10 ^ (k' + 1) := by ring
          exact Nat.div_lt_of_lt_mul h1
        have hfuel : n / 10 ≤ fuel := by
          have := Nat.div_lt_self (by omega : 0 < n) (by omega : 1 < 10)
          omega
        have hrec := ih (n / 10) (k' + 1) hfuel hdiv
        simp only [List.length_append, List.length_singleton]
        omega

/-- The `+CIPSEND<id>,<size>` command always fits the command-size
bound for in-range ids and chunk sizes. -/
lemma prepCmd_length_le (id size : Nat) (hid : id < 5) (hsize : size ≤ 1024) :
    ¬ ((prepCmd id size).length > MaxCommandSize) := by
  have h1 := natDigitsAux_length id id 1 (Nat.le_refl id) (by omega)
  have h2 := natDigitsAux_length size size 4 (Nat.le_refl size) (by omega)
  have h8 : (cmdClipSend).length = 8 := by decide
  simp only [prepCmd, natDigits, List.length_append, List.length_cons,
    List.length_nil, h8, MaxCommandSize, MaxBufferSize]
  omega

/-- Unpacking a fully successful chunk environment. -/
lemma chunkOkB_spec (e : ChunkEnv) (h : chunkOkB e = true) :
    e.sendRawErr = none ∧ e.promptEv = .prompt ∧ e.writeErr = none ∧
      ∃ c, e.completionEv = .line c ∧ containsB c (strB "SEND OK") = true := by
  simp only [chunkOkB, Bool.and_eq_true, beq_iff_eq] at h
  obtain ⟨⟨⟨h1, h2⟩, h3⟩, h4⟩ := h
  refine ⟨h1, h2, h3, ?_⟩
  cases hce : e.completionEv with
  | line c =>
    rw [hce] at h4
    exact ⟨c, rfl, by simpa [completionOkB] using h4⟩
  | timeout => rw [hce] at h4; simp [completionOkB] at h4
  | overflow => rw [hce] at h4; simp [completionOkB] at h4
  | readErr => rw [hce] at h4; simp [completionOkB] at h4
  | prompt => rw [hce] at h4; simp [completionOkB] at h4

/-- A fully successful chunk advances the loop: the chunk size is added
to `totalSent` and the loop resumes at the next chunk. -/
lemma sendChunksAux_cons_ok (id : Nat) (env : Nat → ChunkEnv)
    (fuel k total b : Nat) (bs : List Nat) (hid : id < 5)
    (hok : chunkOkB (env k) = true) :
    sendChunksAux id env (fuel + 1) (b :: bs) k total =
      sendChunksAux id env fuel ((b :: bs).drop (min maxChunk (b :: bs).length))
        (k + 1) (total + min maxChunk (b :: bs).length) := by
  obtain ⟨h1, h2, h3, c, h4, h5⟩ := chunkOkB_spec (env k) hok
  have hsize : min maxChunk (b :: bs).length ≤ 1024 := by
    simp only [maxChunk]
    omega
  have hlen := prepCmd_length_le id (min maxChunk (b :: bs).length) hid hsize
  simp only [sendChunksAux]
  rw [if_neg hlen, h1]
  simp only []
  rw [h2, h3]
  simp only []
  rw [h4]
  simp only [readResponseM, sendCompletionCheck, if_pos h5]

/-- With every chunk environment successful, the loop accepts the whole
remaining payload. -/
lemma sendChunksAux_allOk (id : Nat) (env : Nat → ChunkEnv) (hid : id < 5)
    (hall : ∀ k, chunkOkB (env k) = true) :
    ∀ (fuel : Nat) (data : List Nat) (k total : Nat), data.length ≤ fuel →
      sendChunksAux id env fuel data k total = (total + data.length, none) := by
  intro fuel
  induction fuel with
  | zero =>
    intro data k total h
    cases data with
    | nil => simp [sendChunksAux]
    | cons b bs => simp at h
  | succ fuel ih =>
    intro data k total h
    cases data with
    | nil => simp [sendChunksAux]
    | cons b bs =>
      rw [sendChunksAux_cons_ok id env fuel k total b bs hid (hall k)]
      have hsz1 : 1 ≤ min maxChunk (b :: bs).length := by
        simp [maxChunk]
      have hszle : min maxChunk (b :: bs).length ≤ (b :: bs).length :=
        Nat.min_le_right _ _
      rw [ih _ _ _ (by simp only [List.length_drop]; omega)]
      simp only [List.length_drop, Prod.mk.injEq, and_true]
      omega

/-- The loop never reports more bytes than the remaining payload holds. -/
lemma sendChunksAux_le (id : Nat) (env : Nat → ChunkEnv) :
    ∀ (fuel : Nat) (data : List Nat) (k total : Nat),
      (sendChunksAux id env fuel data k total).1 ≤ total + data.length := by
  intro fuel
  induction fuel with
  | zero =>
    intro data k total
    cases data with
    | nil => simp [sendChunksAux]
    | cons b bs => simp [sendChunksAux]
  | succ fuel ih =>
    intro data k total
    cases data with
    | nil => simp [sendChunksAux]
    | cons b bs =>
      have hszle : min maxChunk (b :: bs).length ≤ (b :: bs).length :=
        Nat.min_le_right _ _
      simp only [sendChunksAux]
      split
      · simp
      · split
        · simp
        · split
          · simp
          · simp
          · simp
          · simp
          · split
            · simp
            · split
              · simp
              · have h := ih ((b :: bs).drop (min maxChunk (b :: bs).length))
                  (k + 1) (total + min maxChunk (b :: bs).length)
                simp only [List.length_drop] at h
                calc (sendChunksAux id env fuel
                      ((b :: bs).drop (min maxChunk (b :: bs).length)) (k + 1)
                      (total + min maxChunk (b :: bs).length)).1
                    ≤ total + min maxChunk (b :: bs).length +
                        ((b :: bs).length - min maxChunk (b :: bs).length) := h
                  _ ≤ total + (b :: bs).length := by omega

/-- If the first `j` chunks succeed and chunk `j`'s completion line
carries the `SEND FAIL` marker (and not `SEND OK`), the loop stops with
exactly the bytes of the `j` completed chunks and `ErrCannotSend`. -/
lemma sendChunksAux_sendFail (id : Nat) (env : Nat → ChunkEnv) (hid : id < 5) :
    ∀ (j fuel : Nat) (data : List Nat) (k total : Nat) (c : List Nat),
      data.length ≤ fuel →
      (∀ i, i < j → chunkOkB (env (k + i)) = true) →
      (env (k + j)).sendRawErr = none →
      (env (k + j)).promptEv = .prompt →
      (env (k + j)).writeErr = none →
      (env (k + j)).completionEv = .line c →
      containsB c (strB "SEND OK") = false →
      containsB c (strB "SEND FAIL") = true →
      maxChunk * j < data.length →
      sendChunksAux id env fuel data k total =
        (total + maxChunk * j, some .cannotSend) := by
  intro j
  induction j with
  | zero =>
    intro fuel data k total c hfuel hprev h1 h2 h3 h4 h5 h6 hlen
    rw [Nat.add_zero] at h1 h2 h3 h4
    cases data with
    | nil => simp at hlen
    | cons b bs =>
      cases fuel with
      | zero => simp at hfuel
      | succ fuel =>
        have hsize : min maxChunk (b :: bs).length ≤ 1024 := by
          simp only [maxChunk]
          omega
        have hplen := prepCmd_length_le id (min maxChunk (b :: bs).length) hid hsize
        simp only [sendChunksAux]
        rw [if_neg hplen, h1]
        simp only []
        rw [h2, h3]
        simp only []
        rw [h4]
        simp only [readResponseM, sendCompletionCheck]
        rw [h5, h6]
        simp
  | succ j ih =>
    intro fuel data k total c hfuel hprev h1 h2 h3 h4 h5 h6 hlen
    have hmc : maxChunk = 1024 := rfl
    cases data with
    | nil => simp at hlen
    | cons b bs =>
      cases fuel with
      | zero => simp at hfuel
      | succ fuel =>
        have hok0 : chunkOkB (env k) = true := by
          have := hprev 0 (by omega)
          simpa using this
        rw [sendChunksAux_cons_ok id env fuel k total b bs hid hok0]
        have hlencons : maxChunk * (j + 1) < (b :: bs).length := hlen
        have hminmc : min maxChunk (b :: bs).length = maxChunk := by
          rw [hmc] at hlencons ⊢
          omega
        rw [hminmc]
        have hprev' : ∀ i, i < j → chunkOkB (env (k + 1 + i)) = true := by
          intro i hi
          have := hprev (i + 1) (by omega)
          rw [show k + (i + 1) = k + 1 + i by omega] at this
          exact this
        have hkj : k + 1 + j = k + (j + 1) := by omega
        have hrec := ih fuel ((b :: bs).drop maxChunk) (k + 1)
          (total + maxChunk) c
          (by simp only [List.length_drop]; omega)
          hprev'
          (by rw [hkj]; exact h1) (by rw [hkj]; exact h2)
          (by rw [hkj]; exact h3) (by rw [hkj]; exact h4)
          h5 h6
          (by simp only [List.length_drop]; rw [hmc] at hlencons ⊢; omega)
        rw [hrec]
        simp only [Prod.mk.injEq, and_true]
        ring

/-- C5: for every occupied connection id the chunked send returns
exactly the bytes the device accepted before the first failure and never
more: an empty payload is `(0, success)` with no device interaction; a
fully successful send returns the full payload length; if the first `j`
chunks succeed and chunk `j`'s completion reply carries the send-failure
marker, exactly `maxChunk * j` bytes are reported together with
`ErrCannotSend` (for the claim's `2*chunkLimit + 10` payload with the
second chunk failing: exactly `chunkLimit` bytes); and the reported
count never exceeds the payload length. -/
theorem claim_C5_chunked_send_count :
    ∀ (st : DeviceState) (id : Nat) (data : List Nat) (env : Nat → ChunkEnv),
      id < MaxConnections → (st.conns.getD id none).isSome →
      (data = [] → connectionSend st id data env = (0, none)) ∧
      ((∀ k, chunkOkB (env k) = true) →
        connectionSend st id data env = (data.length, none)) ∧
      (∀ j c, (∀ i, i < j → chunkOkB (env i) = true) →
        (env j).sendRawErr = none → (env j).promptEv = .prompt →
        (env j).writeErr = none → (env j).completionEv = .line c →
        containsB c (strB "SEND OK") = false →
        containsB c (strB "SEND FAIL") = true →
        maxChunk * j < data.length →
        connectionSend st id data env = (maxChunk * j, some .cannotSend)) ∧
      (connectionSend st id data env).1 ≤ data.length := by
  intro st id data env hid hocc
  have hid5 : id < 5 := by simpa [MaxConnections] using hid
  have hnotval : ¬(MaxConnections ≤ id ∨ st.conns.getD id none = none) := by
    push_neg
    exact ⟨by omega, Option.ne_none_iff_isSome.mpr hocc⟩
  refine ⟨?_, ?_, ?_, ?_⟩
  · intro hnil
    subst hnil
    have h0 : (([] : List Nat)).length = 0 := rfl
    simp only [connectionSend, if_neg hnotval, if_pos h0]
  · intro hall
    by_cases hdata : data.length = 0
    · simp only [connectionSend, if_neg hnotval, if_pos hdata, hdata]
      simp
    · simp only [connectionSend, if_neg hnotval, if_neg hdata, sendChunks]
      rw [sendChunksAux_allOk id env hid5 hall data.length data 0 0
        (Nat.le_refl _)]
      simp
  · intro j c hprev h1 h2 h3 h4 h5 h6 hlen
    have hdata : ¬ data.length = 0 := by omega
    simp only [connectionSend, if_neg hnotval, if_neg hdata, sendChunks]
    have hprev0 : ∀ i, i < j → chunkOkB (env (0 + i)) = true := by
      intro i hi
      simpa using hprev i hi
    have h := sendChunksAux_sendFail id env hid5 j data.length data 0 0 c
      (Nat.le_refl _) hprev0
      (by simpa using h1) (by simpa using h2) (by simpa using h3)
      (by simpa using h4) h5 h6 hlen
    rw [h]
    simp
  · by_cases hdata : data.length = 0
    · simp only [connectionSend, if_neg hnotval, if_pos hdata]
      simp
    · simp only [connectionSend, if_neg hnotval, if_neg hdata, sendChunks]
      have := sendChunksAux_le id env data.length data 0 0
      simpa using this

/-- C5 witness: the claim's scenario — a `2*maxChunk + 10`-byte payload
whose second chunk's completion reply is `SEND FAIL` — reports exactly
`maxChunk = 1024` bytes together with `ErrCannotSend`. -/
theorem claim_C5_chunked_send_count_witness :
    connectionSend
        ⟨"10.0.0.1",
         [some ⟨0, .tcp, .connected, "h", "1"⟩, none, none, none, none],
         List.replicate 5 []⟩
        0 (List.replicate 2058 7)
        (fun k =>
          if k = 0 then ⟨none, .prompt, none, .line (strB "SEND OK")⟩
          else ⟨none, .prompt, none, .line (strB "SEND FAIL")⟩) =
      (1024, some .cannotSend) := by
  have h := (claim_C5_chunked_send_count
    ⟨"10.0.0.1",
     [some ⟨0, .tcp, .connected, "h", "1"⟩, none, none, none, none],
     List.replicate 5 []⟩
    0 (List.replicate 2058 7)
    (fun k =>
      if k = 0 then ⟨none, .prompt, none, .line (strB "SEND OK")⟩
      else ⟨none, .prompt, none, .line (strB "SEND FAIL")⟩)
    (by decide) (by decide)).2.2.1 1 (strB "SEND FAIL")
    (by decide) (by decide) (by decide) (by decide) (by decide)
    (by decide) (by decide)
    (by rw [List.length_replicate]; norm_num [maxChunk])
  exact h
